import Mathlib

/-!
Shallow embedding of the inventory HTTP API implemented in src/main.js.

The registry is a JSON array on disk (read whole / rewritten whole by every
handler); we model it as the list of items in file order.  Photo blobs are
loose files named by item id; we model the photo directory as an association
list from file name to byte content, where a write prepends (later writes
shadow earlier ones, as overwriting a file does) and unlink removes every
entry with that name.

Request ids arrive as strings and are parsed with the JavaScript Number
conversion followed by an isNaN check.  We model the parse result as an
Option Int: none stands for NaN (a non-numeric string), some n for a numeric
value.  (Number can also produce non-integral values such as 1.5; those match
no stored id, exactly like any unmatched integer, so Int loses nothing the
claims depend on.)  Optional body fields are Option String / Option byte
lists, none standing for an absent field.
-/

namespace Inventory

/-- An inventory record as stored in db.json: id, name, description and the
optional photo file name. -/
structure Item where
  id : Nat
  name : String
  description : String
  photo : Option String
deriving DecidableEq, Repr

/-- The whole persistent state: the db.json array and the photo directory. -/
structure ServerState where
  db : List Item
  photos : List (String × List Nat)
deriving DecidableEq, Repr

/-- Fresh server: db.json initialised to an empty array, no photo files. -/
def initState : ServerState := { db := [], photos := [] }

/-- nextId from main.js: max existing id plus one, or 1 on an empty db. -/
def nextId (db : List Item) : Nat :=
  match db with
  | [] => 1
  | _ => (db.map Item.id).foldl Nat.max 0 + 1

/-- photoFile from main.js: the file name for an id (directory elided). -/
def photoFile (n : Int) : String := toString n ++ ".jpg"

/-- fs.writeFileSync on the photo directory: later entries shadow earlier. -/
def putBlob (ps : List (String × List Nat)) (k : String) (v : List Nat) :
    List (String × List Nat) :=
  (k, v) :: ps

/-- fs.existsSync / reading a photo file: first entry with the name wins. -/
def getBlob (ps : List (String × List Nat)) (k : String) : Option (List Nat) :=
  (ps.find? (fun e => e.1 == k)).map Prod.snd

/-- fs.unlinkSync: the file is gone, shadowed versions included. -/
def delBlob (ps : List (String × List Nat)) (k : String) :
    List (String × List Nat) :=
  ps.filter (fun e => e.1 != k)

/-- The JSON bodies the handlers produce, tagged by how they respond. -/
structure SearchResult where
  id : Nat
  name : String
  description : String
  photo : Option String
  photo_url : Option String
deriving DecidableEq, Repr

inductive Resp where
  | created : Item → Resp
  | okItem : Item → Resp
  | okList : List Item → Resp
  | okBytes : List Nat → Resp
  | okText : String → Resp
  | okSearch : SearchResult → Resp
  | badRequest : String → Resp
  | notFound : String → Resp
deriving DecidableEq, Repr

/-- HTTP status code of a response. -/
def Resp.status : Resp → Nat
  | .created _ => 201
  | .okItem _ => 200
  | .okList _ => 200
  | .okBytes _ => 200
  | .okText _ => 200
  | .okSearch _ => 200
  | .badRequest _ => 400
  | .notFound _ => 404

/-- POST /register: requires a truthy inventory_name (present and non-empty);
assigns nextId; if a photo file is attached, writes it and records its name;
description defaults to the empty string. -/
def register (s : ServerState) (name? desc? : Option String)
    (file? : Option (List Nat)) : Resp × ServerState :=
  match name? with
  | none => (.badRequest "inventory_name is required", s)
  | some nm =>
    if nm = "" then (.badRequest "inventory_name is required", s)
    else
      let id := nextId s.db
      let photoName : Option String :=
        match file? with
        | some _ => some (photoFile (id : Int))
        | none => none
      let photos :=
        match file? with
        | some bytes => putBlob s.photos (photoFile (id : Int)) bytes
        | none => s.photos
      let item : Item :=
        { id := id, name := nm, description := desc?.getD "", photo := photoName }
      (.created item, { db := s.db ++ [item], photos := photos })

/-- GET /inventory: the db array as stored. -/
def listInventory (s : ServerState) : Resp × ServerState :=
  (.okList s.db, s)

/-- GET /inventory/:id: 400 on NaN, 404 when no record matches. -/
def getItem (s : ServerState) (id? : Option Int) : Resp × ServerState :=
  match id? with
  | none => (.badRequest "ID must be a number", s)
  | some n =>
    match s.db.find? (fun x => (x.id : Int) == n) with
    | none => (.notFound "Not found", s)
    | some item => (.okItem item, s)

/-- The in-place mutation of the found record in PUT /inventory/:id:
a truthy (present, non-empty) field overwrites, otherwise kept. -/
def applyUpdate (name? desc? : Option String) (it : Item) : Item :=
  let it1 :=
    match name? with
    | some nm => if nm = "" then it else { it with name := nm }
    | none => it
  match desc? with
  | some d => if d = "" then it1 else { it1 with description := d }
  | none => it1

/-- db.find returns a reference and the handler mutates it in place: only the
first record satisfying the predicate changes. -/
def updateFirst (p : Item → Bool) (f : Item → Item) : List Item → List Item
  | [] => []
  | x :: xs => if p x then f x :: xs else x :: updateFirst p f xs

/-- PUT /inventory/:id: partial update of name / description. -/
def updateItem (s : ServerState) (id? : Option Int) (name? desc? : Option String) :
    Resp × ServerState :=
  match id? with
  | none => (.badRequest "ID must be a number", s)
  | some n =>
    match s.db.find? (fun x => (x.id : Int) == n) with
    | none => (.notFound "Not found", s)
    | some item =>
      (.okItem (applyUpdate name? desc? item),
        { s with db := updateFirst (fun x => (x.id : Int) == n) (applyUpdate name? desc?) s.db })

/-- GET /inventory/:id/photo: 400 on NaN, 404 when the file does not exist,
otherwise the raw bytes. -/
def getPhoto (s : ServerState) (id? : Option Int) : Resp × ServerState :=
  match id? with
  | none => (.badRequest "ID must be a number", s)
  | some n =>
    match getBlob s.photos (photoFile n) with
    | none => (.notFound "Photo not found", s)
    | some bytes => (.okBytes bytes, s)

/-- PUT /inventory/:id/photo: 400 on NaN, 404 when no record matches, 400 when
no file was uploaded; otherwise writes the blob and sets the photo field. -/
def putPhoto (s : ServerState) (id? : Option Int) (file? : Option (List Nat)) :
    Resp × ServerState :=
  match id? with
  | none => (.badRequest "ID must be a number", s)
  | some n =>
    match s.db.find? (fun x => (x.id : Int) == n) with
    | none => (.notFound "Not found", s)
    | some it =>
      match file? with
      | none => (.badRequest "No photo uploaded", s)
      | some bytes =>
        (.okItem { it with photo := some (photoFile n) },
          { db := updateFirst (fun x => (x.id : Int) == n)
              (fun x => { x with photo := some (photoFile n) }) s.db,
            photos := putBlob s.photos (photoFile n) bytes })

/-- DELETE /inventory/:id: 400 on NaN, 404 when no record matches; otherwise
removes the photo file if present and splices the record out. -/
def deleteItem (s : ServerState) (id? : Option Int) : Resp × ServerState :=
  match id? with
  | none => (.badRequest "ID must be a number", s)
  | some n =>
    match s.db.find? (fun x => (x.id : Int) == n) with
    | none => (.notFound "Not found", s)
    | some _ =>
      (.okText "Deleted",
        { db := s.db.eraseP (fun x => (x.id : Int) == n),
          photos := delBlob s.photos (photoFile n) })

/-- Truthiness of item.photo in JavaScript: non-null and non-empty. -/
def truthyPhoto : Option String → Bool
  | some p => p != ""
  | none => false

/-- POST /search: Number(req.body.id) with no isNaN check, so a NaN id simply
matches no record; photo_url is added when includePhoto is the string on and
the record has a truthy photo. -/
def search (s : ServerState) (id? : Option Int) (includePhoto? : Option String) :
    Resp × ServerState :=
  let includePhoto := includePhoto? == some "on"
  match id? with
  | none => (.notFound "Not found", s)
  | some n =>
    match s.db.find? (fun x => (x.id : Int) == n) with
    | none => (.notFound "Not found", s)
    | some item =>
      (.okSearch
        { id := item.id, name := item.name, description := item.description,
          photo := item.photo,
          photo_url :=
            if includePhoto && truthyPhoto item.photo then
              some ("/inventory/" ++ toString n ++ "/photo")
            else none }, s)

/-- One API request, carrying the already-parsed inputs. -/
inductive Op where
  | opRegister (name? desc? : Option String) (file? : Option (List Nat))
  | opList
  | opGet (id? : Option Int)
  | opUpdate (id? : Option Int) (name? desc? : Option String)
  | opGetPhoto (id? : Option Int)
  | opPutPhoto (id? : Option Int) (file? : Option (List Nat))
  | opDelete (id? : Option Int)
  | opSearch (id? : Option Int) (includePhoto? : Option String)

/-- Dispatch one request against the state. -/
def applyOp (s : ServerState) : Op → Resp × ServerState
  | .opRegister name? desc? file? => register s name? desc? file?
  | .opList => listInventory s
  | .opGet id? => getItem s id?
  | .opUpdate id? name? desc? => updateItem s id? name? desc?
  | .opGetPhoto id? => getPhoto s id?
  | .opPutPhoto id? file? => putPhoto s id? file?
  | .opDelete id? => deleteItem s id?
  | .opSearch id? inc? => search s id? inc?

/-- Run a request sequence, keeping only the final state. -/
def runOps (s : ServerState) (ops : List Op) : ServerState :=
  ops.foldl (fun t op => (applyOp t op).2) s

/-- States the server can be in, starting from a fresh install. -/
def Reachable (s : ServerState) : Prop :=
  ∃ ops : List Op, runOps initState ops = s

/-! Helper lemmas about the embedded operations. -/

lemma foldl_max_le_init (l : List Nat) (a : Nat) : a ≤ l.foldl Nat.max a := by
  induction l generalizing a with
  | nil => exact Nat.le_refl a
  | cons y ys ih => exact Nat.le_trans (Nat.le_max_left a y) (ih (Nat.max a y))

lemma mem_le_foldl_max (l : List Nat) (a x : Nat) (hx : x ∈ l) :
    x ≤ l.foldl Nat.max a := by
  induction l generalizing a with
  | nil => cases hx
  | cons y ys ih =>
    rcases List.mem_cons.mp hx with h | h
    · subst h
      exact Nat.le_trans (Nat.le_max_right a x) (foldl_max_le_init ys _)
    · exact ih _ h

/-- Every stored id is strictly below the id the next create will assign. -/
lemma id_lt_nextId (db : List Item) (x : Item) (hx : x ∈ db) : x.id < nextId db := by
  cases db with
  | nil => cases hx
  | cons y ys =>
    have hle : x.id ≤ (((y :: ys).map Item.id).foldl Nat.max 0) :=
      mem_le_foldl_max _ 0 _ (List.mem_map_of_mem Item.id hx)
    have : nextId (y :: ys) = ((y :: ys).map Item.id).foldl Nat.max 0 + 1 := rfl
    omega

lemma find?_eq_none_of_absent (l : List Item) (n : Int)
    (h : ∀ x ∈ l, (x.id : Int) ≠ n) :
    l.find? (fun x => (x.id : Int) == n) = none := by
  apply List.find?_eq_none.mpr
  intro x hx
  simpa using h x hx

lemma exists_find?_eq_some (l : List Item) (n : Int)
    (hex : ∃ x ∈ l, (x.id : Int) = n) :
    ∃ y, l.find? (fun x => (x.id : Int) == n) = some y := by
  obtain ⟨x, hx, hxid⟩ := hex
  cases hf : l.find? (fun x => (x.id : Int) == n) with
  | none =>
    have := List.find?_eq_none.mp hf x hx
    simp [hxid] at this
  | some y => exact ⟨y, rfl⟩

/-- A freshly appended item with an id above everything else is what a lookup
for that id finds. -/
lemma find?_append_fresh (l : List Item) (it : Item)
    (h : ∀ x ∈ l, (x.id : Int) ≠ (it.id : Int)) :
    (l ++ [it]).find? (fun x => (x.id : Int) == (it.id : Int)) = some it := by
  induction l with
  | nil => simp
  | cons a as ih =>
    have ha : ((a.id : Int) == (it.id : Int)) = false := by
      simpa using h a (List.mem_cons_self a as)
    simpa [List.find?_cons, ha] using ih fun x hx => h x (List.mem_cons_of_mem a hx)

lemma getBlob_putBlob (ps : List (String × List Nat)) (k : String) (v : List Nat) :
    getBlob (putBlob ps k v) k = some v := by
  simp [getBlob, putBlob, List.find?_cons]

lemma getBlob_delBlob (ps : List (String × List Nat)) (k : String) :
    getBlob (delBlob ps k) k = none := by
  have : (delBlob ps k).find? (fun e => e.1 == k) = none := by
    apply List.find?_eq_none.mpr
    intro e he
    have := List.of_mem_filter he
    simpa using this
  simp [getBlob, this]

lemma updateFirst_length (p : Item → Bool) (f : Item → Item) (l : List Item) :
    (updateFirst p f l).length = l.length := by
  induction l with
  | nil => rfl
  | cons x xs ih => by_cases hx : p x <;> simp [updateFirst, hx, ih]

lemma updateFirst_get (p : Item → Bool) (f : Item → Item) (l : List Item) (i : Nat)
    (h : i < l.length) (h' : i < (updateFirst p f l).length) :
    (updateFirst p f l).get ⟨i, h'⟩ = l.get ⟨i, h⟩ ∨
    (p (l.get ⟨i, h⟩) = true ∧
      (updateFirst p f l).get ⟨i, h'⟩ = f (l.get ⟨i, h⟩)) := by
  induction l generalizing i with
  | nil => cases h
  | cons x xs ih =>
    by_cases hx : p x
    · cases i with
      | zero => right; exact ⟨hx, by simp [updateFirst, hx]⟩
      | succ j => left; simp [updateFirst, hx]
    · cases i with
      | zero => left; simp [updateFirst, hx]
      | succ j =>
        have hj : j < xs.length := by simpa using h
        have hj' : j < (updateFirst p f xs).length := by
          simpa [updateFirst, hx] using h'
        simpa [updateFirst, hx] using ih j hj hj'

lemma updateFirst_map_id (p : Item → Bool) (f : Item → Item)
    (hf : ∀ x, (f x).id = x.id) (l : List Item) :
    (updateFirst p f l).map Item.id = l.map Item.id := by
  induction l with
  | nil => rfl
  | cons x xs ih => by_cases hx : p x <;> simp [updateFirst, hx, hf, ih]

lemma find?_updateFirst_some (p : Item → Bool) (f : Item → Item)
    (hpf : ∀ x, p (f x) = p x) (l : List Item) (x : Item)
    (hx : l.find? p = some x) :
    (updateFirst p f l).find? p = some (f x) := by
  induction l with
  | nil => cases hx
  | cons a as ih =>
    by_cases ha : p a
    · rw [List.find?_cons_of_pos _ ha] at hx
      cases hx
      simp [updateFirst, ha, List.find?_cons, hpf]
    · have ha' : p a = false := by simpa using ha
      rw [List.find?_cons_of_neg _ (by simp [ha'])] at hx
      simpa [updateFirst, ha', List.find?_cons] using ih hx

lemma applyUpdate_id (name? desc? : Option String) (it : Item) :
    (applyUpdate name? desc? it).id = it.id := by
  unfold applyUpdate
  repeat' split
  all_goals rfl

lemma applyUpdate_photo (name? desc? : Option String) (it : Item) :
    (applyUpdate name? desc? it).photo = it.photo := by
  unfold applyUpdate
  repeat' split
  all_goals rfl

lemma applyUpdate_name_blank (name? desc? : Option String) (it : Item)
    (h : name? = none ∨ name? = some "") :
    (applyUpdate name? desc? it).name = it.name := by
  rcases h with h | h <;> subst h <;> unfold applyUpdate <;> repeat' split
  all_goals simp_all

lemma applyUpdate_desc_blank (name? desc? : Option String) (it : Item)
    (h : desc? = none ∨ desc? = some "") :
    (applyUpdate name? desc? it).description = it.description := by
  rcases h with h | h <;> subst h <;> unfold applyUpdate <;> repeat' split
  all_goals simp_all

lemma get_congr (l l' : List Item) (i : Nat) (h : i < l.length) (h' : i < l'.length)
    (heq : l = l') : l.get ⟨i, h⟩ = l'.get ⟨i, h'⟩ := by
  subst heq
  rfl

lemma getItem_snd (s : ServerState) (id? : Option Int) : (getItem s id?).2 = s := by
  cases id? with
  | none => rfl
  | some n => cases hf : s.db.find? (fun x => (x.id : Int) == n) <;> simp [getItem, hf]

lemma getPhoto_snd (s : ServerState) (id? : Option Int) : (getPhoto s id?).2 = s := by
  cases id? with
  | none => rfl
  | some n => cases hg : getBlob s.photos (photoFile n) <;> simp [getPhoto, hg]

lemma search_snd (s : ServerState) (id? : Option Int) (inc? : Option String) :
    (search s id? inc?).2 = s := by
  cases id? with
  | none => rfl
  | some n => cases hf : s.db.find? (fun x => (x.id : Int) == n) <;> simp [search, hf]

/-- The db produced by a successful create: the old array with the new record
appended, photo name present exactly when a file was attached. -/
lemma register_db_of_valid (s : ServerState) (nm : String) (desc? : Option String)
    (file? : Option (List Nat)) (hnm : nm ≠ "") :
    (register s (some nm) desc? file?).2.db
      = s.db ++ [{ id := nextId s.db, name := nm, description := desc?.getD "",
                   photo := file?.map (fun _ => photoFile (nextId s.db : Int)) }] := by
  cases file? <;> simp [register, hnm]

lemma register_fst_of_valid (s : ServerState) (nm : String) (desc? : Option String)
    (file? : Option (List Nat)) (hnm : nm ≠ "") :
    (register s (some nm) desc? file?).1
      = Resp.created { id := nextId s.db, name := nm, description := desc?.getD "",
                       photo := file?.map (fun _ => photoFile (nextId s.db : Int)) } := by
  cases file? <;> simp [register, hnm]

/-- Invariant: the db array is strictly sorted by id. -/
def SortedIds (s : ServerState) : Prop :=
  List.Pairwise (fun a b => a < b) (s.db.map Item.id)

lemma sortedIds_register (s : ServerState) (name? desc? : Option String)
    (file? : Option (List Nat)) (h : SortedIds s) :
    SortedIds (register s name? desc? file?).2 := by
  cases name? with
  | none => exact h
  | some nm =>
    by_cases hnm : nm = ""
    · simpa [register, hnm] using h
    · unfold SortedIds
      rw [register_db_of_valid s nm desc? file? hnm, List.map_append,
        List.pairwise_append]
      refine ⟨h, by simp, ?_⟩
      intro a ha b hb
      obtain ⟨x, hx, rfl⟩ := List.mem_map.mp ha
      simp only [List.map_cons, List.map_nil, List.mem_singleton] at hb
      subst hb
      exact id_lt_nextId s.db x hx

lemma sortedIds_updateFirst (s : ServerState) (p : Item → Bool) (f : Item → Item)
    (hf : ∀ x, (f x).id = x.id) (h : SortedIds s) :
    SortedIds { s with db := updateFirst p f s.db } := by
  unfold SortedIds
  simpa [updateFirst_map_id p f hf s.db] using h

lemma sortedIds_eraseP (s : ServerState) (p : Item → Bool)
    (ps : List (String × List Nat)) (h : SortedIds s) :
    SortedIds { db := s.db.eraseP p, photos := ps } := by
  unfold SortedIds
  exact h.sublist ((List.eraseP_sublist (p := p) s.db).map Item.id)

lemma sortedIds_step (s : ServerState) (op : Op) (h : SortedIds s) :
    SortedIds (applyOp s op).2 := by
  cases op with
  | opRegister name? desc? file? => exact sortedIds_register s name? desc? file? h
  | opList => exact h
  | opGet id? => rw [applyOp, getItem_snd]; exact h
  | opGetPhoto id? => rw [applyOp, getPhoto_snd]; exact h
  | opSearch id? inc? => rw [applyOp, search_snd]; exact h
  | opUpdate id? name? desc? =>
    cases id? with
    | none => exact h
    | some n =>
      cases hf : s.db.find? (fun x => (x.id : Int) == n) with
      | none => simpa [applyOp, updateItem, hf] using h
      | some it =>
        have := sortedIds_updateFirst s (fun x => (x.id : Int) == n)
          (applyUpdate name? desc?) (applyUpdate_id name? desc?) h
        simpa [applyOp, updateItem, hf] using this
  | opPutPhoto id? file? =>
    cases id? with
    | none => exact h
    | some n =>
      cases hf : s.db.find? (fun x => (x.id : Int) == n) with
      | none => simpa [applyOp, putPhoto, hf] using h
      | some it =>
        cases file? with
        | none => simpa [applyOp, putPhoto, hf] using h
        | some bytes =>
          have := sortedIds_updateFirst s (fun x => (x.id : Int) == n)
            (fun x => { x with photo := some (photoFile n) }) (fun x => rfl) h
          simpa [applyOp, putPhoto, hf, SortedIds] using this
  | opDelete id? =>
    cases id? with
    | none => exact h
    | some n =>
      cases hf : s.db.find? (fun x => (x.id : Int) == n) with
      | none => simpa [applyOp, deleteItem, hf] using h
      | some it =>
        have := sortedIds_eraseP s (fun x => (x.id : Int) == n)
          (delBlob s.photos (photoFile n)) h
        simpa [applyOp, deleteItem, hf] using this

lemma sortedIds_runOps (ops : List Op) (s : ServerState) (h : SortedIds s) :
    SortedIds (runOps s ops) := by
  induction ops generalizing s with
  | nil => exact h
  | cons op rest ih => exact ih (applyOp s op).2 (sortedIds_step s op h)

/-! Claim theorems. -/

/-- Claim C1, counterexample: the claim says a deleted item's id is never
reassigned, but nextId is max(current)+1: the first create assigns id 1, and
after deleting item 1 a second create assigns id 1 again. -/
theorem C1_counterexample :
    (register initState (some "a") none none).1
      = Resp.created { id := 1, name := "a", description := "", photo := none } ∧
    (register (deleteItem (register initState (some "a") none none).2 (some 1)).2
        (some "b") none none).1
      = Resp.created { id := 1, name := "b", description := "", photo := none } :=
  ⟨rfl, rfl⟩

/-- Claim C1, amended: ids start at 1 and each successful create assigns
max(current ids)+1, which is strictly greater than the id of every item
currently stored; the id of a deleted item may be reassigned once no stored
item has an id at least as large. -/
theorem C1_ids_exceed_current (s : ServerState) (name : String)
    (desc? : Option String) (file? : Option (List Nat)) (hname : name ≠ "") :
    nextId [] = 1 ∧
    ∃ it : Item, (register s (some name) desc? file?).1 = Resp.created it ∧
      it.id = nextId s.db ∧ ∀ x ∈ s.db, x.id < it.id := by
  exact ⟨rfl, ⟨_, register_fst_of_valid s name desc? file? hname, rfl,
    fun x hx => id_lt_nextId s.db x hx⟩⟩

/-- Witness for C1_ids_exceed_current at a concrete input. -/
theorem C1_witness :
    nextId [] = 1 ∧
    ∃ it : Item, (register initState (some "a") none none).1 = Resp.created it ∧
      it.id = nextId initState.db ∧ ∀ x ∈ initState.db, x.id < it.id :=
  C1_ids_exceed_current initState "a" none none (by decide)

/-- Claim C2: a create without a photo followed by get on the returned id
yields the given name, the given description (empty when omitted) and a null
photo. -/
theorem C2_create_then_get (s : ServerState) (name : String) (desc? : Option String)
    (hname : name ≠ "") :
    (register s (some name) desc? none).1
      = Resp.created { id := nextId s.db, name := name, description := desc?.getD "",
                       photo := none } ∧
    (getItem (register s (some name) desc? none).2 (some (nextId s.db : Int))).1
      = Resp.okItem { id := nextId s.db, name := name, description := desc?.getD "",
                      photo := none } := by
  constructor
  · simpa using register_fst_of_valid s name desc? none hname
  · have hdb := register_db_of_valid s name desc? none hname
    have hfresh : ∀ x ∈ s.db, (x.id : Int) ≠
        ((({ id := nextId s.db, name := name, description := desc?.getD "",
             photo := none } : Item).id : Nat) : Int) := by
      intro x hx hEq
      have hlt := id_lt_nextId s.db x hx
      have : x.id = nextId s.db := by exact_mod_cast hEq
      omega
    have hfind := find?_append_fresh s.db
      { id := nextId s.db, name := name, description := desc?.getD "", photo := none }
      hfresh
    simp only [Option.map_none] at hdb
    simp [getItem, hdb, hfind]

/-- Witness for C2_create_then_get at a concrete input. -/
theorem C2_witness :
    (register initState (some "Drill") none none).1
      = Resp.created { id := 1, name := "Drill", description := "", photo := none } ∧
    (getItem (register initState (some "Drill") none none).2 (some 1)).1
      = Resp.okItem { id := 1, name := "Drill", description := "", photo := none } :=
  C2_create_then_get initState "Drill" none (by decide)

/-- Claim C4, counterexample: the claim says the 201 response item always has
a null photo, but a create that carries a photo file responds with photo set
to id.jpg. -/
theorem C4_counterexample :
    (register initState (some "a") none (some [0])).1
      = Resp.created { id := 1, name := "a", description := "", photo := some "1.jpg" } ∧
    (register initState (some "a") none (some [0])).1
      ≠ Resp.created { id := 1, name := "a", description := "", photo := none } := by
  constructor
  · rfl
  · decide

/-- Claim C4, amended: the item in the 201 response has a null photo exactly
when the request carried no photo file; with a file the photo field is the
stored file name id.jpg. -/
theorem C4_photo_reflects_file (s : ServerState) (name : String)
    (desc? : Option String) (file? : Option (List Nat)) (hname : name ≠ "") :
    (register s (some name) desc? file?).1
      = Resp.created { id := nextId s.db, name := name, description := desc?.getD "",
                       photo := file?.map (fun _ => photoFile (nextId s.db : Int)) } :=
  register_fst_of_valid s name desc? file? hname

/-- Witness for C4_photo_reflects_file at a concrete input. -/
theorem C4_witness :
    (register initState (some "a") none (some [0])).1
      = Resp.created { id := 1, name := "a", description := "",
                       photo := some (photoFile 1) } :=
  C4_photo_reflects_file initState "a" none (some [0]) (by decide)

/-- Claim C3, counterexample: the claim says a missing or non-numeric id
yields 400 also on POST /search, but the search handler has no isNaN check:
a NaN id simply matches no record and the handler answers 404. -/
theorem C3_counterexample :
    (search initState none none).1 = Resp.notFound "Not found" ∧
    Resp.status (search initState none none).1 = 404 := ⟨rfl, rfl⟩

/-- Claim C3, amended: a missing required field or non-numeric id yields 400
and a valid id with no matching record (or photo file) yields 404 on the
GET/PUT/DELETE item routes, the two photo routes and POST /register — but
POST /search answers 404, not 400, for a missing or non-numeric id. -/
theorem C3_status_codes (s : ServerState) (n : Int) (bytes : List Nat)
    (hid : ∀ x ∈ s.db, (x.id : Int) ≠ n)
    (hph : getBlob s.photos (photoFile n) = none) :
    Resp.status (getItem s none).1 = 400 ∧
    Resp.status (updateItem s none none none).1 = 400 ∧
    Resp.status (deleteItem s none).1 = 400 ∧
    Resp.status (getPhoto s none).1 = 400 ∧
    Resp.status (putPhoto s none (some bytes)).1 = 400 ∧
    Resp.status (register s none none none).1 = 400 ∧
    Resp.status (register s (some "") none none).1 = 400 ∧
    Resp.status (getItem s (some n)).1 = 404 ∧
    Resp.status (updateItem s (some n) none none).1 = 404 ∧
    Resp.status (deleteItem s (some n)).1 = 404 ∧
    Resp.status (putPhoto s (some n) (some bytes)).1 = 404 ∧
    Resp.status (getPhoto s (some n)).1 = 404 ∧
    Resp.status (search s none none).1 = 404 ∧
    Resp.status (search s (some n) none).1 = 404 := by
  have hfind := find?_eq_none_of_absent s.db n hid
  refine ⟨rfl, rfl, rfl, rfl, rfl, rfl, rfl, ?_, ?_, ?_, ?_, ?_, rfl, ?_⟩
  · simp [getItem, hfind, Resp.status]
  · simp [updateItem, hfind, Resp.status]
  · simp [deleteItem, hfind, Resp.status]
  · simp [putPhoto, hfind, Resp.status]
  · simp [getPhoto, hph, Resp.status]
  · simp [search, hfind, Resp.status]

/-- Witness for C3_status_codes at a concrete input. -/
theorem C3_witness :
    Resp.status (getItem initState none).1 = 400 ∧
    Resp.status (updateItem initState none none none).1 = 400 ∧
    Resp.status (deleteItem initState none).1 = 400 ∧
    Resp.status (getPhoto initState none).1 = 400 ∧
    Resp.status (putPhoto initState none (some [0])).1 = 400 ∧
    Resp.status (register initState none none none).1 = 400 ∧
    Resp.status (register initState (some "") none none).1 = 400 ∧
    Resp.status (getItem initState (some 5)).1 = 404 ∧
    Resp.status (updateItem initState (some 5) none none).1 = 404 ∧
    Resp.status (deleteItem initState (some 5)).1 = 404 ∧
    Resp.status (putPhoto initState (some 5) (some [0])).1 = 404 ∧
    Resp.status (getPhoto initState (some 5)).1 = 404 ∧
    Resp.status (search initState none none).1 = 404 ∧
    Resp.status (search initState (some 5) none).1 = 404 :=
  C3_status_codes initState 5 [0] (by simp [initState]) rfl

/-- Claim C5: an update that supplies only a name leaves the description
unchanged and vice versa; a supplied empty-string field changes nothing; the
id and photo of the target never change; every record whose id differs from
the requested one is unchanged in all fields. -/
theorem C5_partial_update (s : ServerState) (n : Int) (name? desc? : Option String)
    (i : Nat) (h : i < s.db.length)
    (h' : i < ((updateItem s (some n) name? desc?).2.db).length) :
    (((updateItem s (some n) name? desc?).2.db).get ⟨i, h'⟩).id
        = (s.db.get ⟨i, h⟩).id ∧
    (((updateItem s (some n) name? desc?).2.db).get ⟨i, h'⟩).photo
        = (s.db.get ⟨i, h⟩).photo ∧
    ((name? = none ∨ name? = some "") →
      (((updateItem s (some n) name? desc?).2.db).get ⟨i, h'⟩).name
        = (s.db.get ⟨i, h⟩).name) ∧
    ((desc? = none ∨ desc? = some "") →
      (((updateItem s (some n) name? desc?).2.db).get ⟨i, h'⟩).description
        = (s.db.get ⟨i, h⟩).description) ∧
    (((s.db.get ⟨i, h⟩).id : Int) ≠ n →
      ((updateItem s (some n) name? desc?).2.db).get ⟨i, h'⟩ = s.db.get ⟨i, h⟩) := by
  cases hf : s.db.find? (fun x => (x.id : Int) == n) with
  | none =>
    have hdb : (updateItem s (some n) name? desc?).2.db = s.db := by
      simp [updateItem, hf]
    have hget0 : ((updateItem s (some n) name? desc?).2.db).get ⟨i, h'⟩
        = s.db.get ⟨i, h⟩ := get_congr _ _ i h' h hdb
    rw [hget0]
    exact ⟨rfl, rfl, fun _ => rfl, fun _ => rfl, fun _ => rfl⟩
  | some it =>
    have hdb : (updateItem s (some n) name? desc?).2.db
        = updateFirst (fun x => (x.id : Int) == n) (applyUpdate name? desc?) s.db := by
      simp [updateItem, hf]
    have h'' : i < (updateFirst (fun x => (x.id : Int) == n)
        (applyUpdate name? desc?) s.db).length := by
      rwa [hdb] at h'
    have hget : ((updateItem s (some n) name? desc?).2.db).get ⟨i, h'⟩
        = (updateFirst (fun x => (x.id : Int) == n)
            (applyUpdate name? desc?) s.db).get ⟨i, h''⟩ :=
      get_congr _ _ i h' h'' hdb
    rw [hget]
    rcases updateFirst_get (fun x => (x.id : Int) == n) (applyUpdate name? desc?)
        s.db i h h'' with heq | ⟨hp, heq⟩
    · rw [heq]
      exact ⟨rfl, rfl, fun _ => rfl, fun _ => rfl, fun _ => rfl⟩
    · rw [heq]
      refine ⟨applyUpdate_id name? desc? _, applyUpdate_photo name? desc? _,
        fun hb => applyUpdate_name_blank name? desc? _ hb,
        fun hb => applyUpdate_desc_blank name? desc? _ hb, fun hne => ?_⟩
      exact absurd (by simpa using hp) hne

/-- The one-item state used to witness C5_partial_update. -/
def c5state : ServerState :=
  { db := [{ id := 1, name := "a", description := "d", photo := none }], photos := [] }

/-- Witness for C5_partial_update at a concrete input. -/
theorem C5_witness :
    ((updateItem c5state (some 1) (some "b") none).2.db.get ⟨0, by decide⟩).id
      = (c5state.db.get ⟨0, by decide⟩).id ∧
    ((updateItem c5state (some 1) (some "b") none).2.db.get ⟨0, by decide⟩).photo
      = (c5state.db.get ⟨0, by decide⟩).photo ∧
    (((some "b" : Option String) = none ∨ (some "b" : Option String) = some "") →
      ((updateItem c5state (some 1) (some "b") none).2.db.get ⟨0, by decide⟩).name
        = (c5state.db.get ⟨0, by decide⟩).name) ∧
    (((none : Option String) = none ∨ (none : Option String) = some "") →
      ((updateItem c5state (some 1) (some "b") none).2.db.get ⟨0, by decide⟩).description
        = (c5state.db.get ⟨0, by decide⟩).description) ∧
    (((c5state.db.get ⟨0, by decide⟩).id : Int) ≠ 1 →
      (updateItem c5state (some 1) (some "b") none).2.db.get ⟨0, by decide⟩
        = c5state.db.get ⟨0, by decide⟩) :=
  C5_partial_update c5state 1 (some "b") none 0 (by decide) (by decide)

/-- After erasing the only record with a given id from a duplicate-free db,
no record with that id remains. -/
lemma find?_eraseP_eq_none (l : List Item) (n : Int)
    (hnodup : (l.map Item.id).Nodup) :
    (l.eraseP (fun x => (x.id : Int) == n)).find? (fun x => (x.id : Int) == n)
      = none := by
  induction l with
  | nil => rfl
  | cons x xs ih =>
    rw [List.map_cons, List.nodup_cons] at hnodup
    by_cases hx : ((x.id : Int) == n) = true
    · rw [List.eraseP_cons_of_pos (p := fun (y : Item) => (y.id : Int) == n) hx]
      apply List.find?_eq_none.mpr
      intro y hy
      simp only [beq_iff_eq]
      intro hEq
      have hxid : (x.id : Int) = n := by simpa using hx
      have hyx : y.id = x.id := by
        have : (y.id : Int) = (x.id : Int) := by rw [hEq, hxid]
        exact_mod_cast this
      exact hnodup.1 (hyx ▸ List.mem_map_of_mem Item.id hy)
    · have hx' : ((x.id : Int) == n) = false := by simpa using hx
      rw [List.eraseP_cons_of_neg (p := fun (y : Item) => (y.id : Int) == n) (by simp [hx']),
        List.find?_cons_of_neg _ (by simp [hx'])]
      exact ih hnodup.2

/-- Claim C6: in every state reachable from the empty registry the stored
collection is strictly sorted by id, and GET /inventory returns exactly that
collection. -/
theorem C6_list_sorted (s : ServerState) (h : Reachable s) :
    (listInventory s).1 = Resp.okList s.db ∧
    List.Pairwise (fun a b => a < b) (s.db.map Item.id) := by
  obtain ⟨ops, hops⟩ := h
  subst hops
  exact ⟨rfl, sortedIds_runOps ops initState List.Pairwise.nil⟩

/-- The request sequence used to witness C6_list_sorted. -/
def c6ops : List Op :=
  [Op.opRegister (some "a") none none, Op.opRegister (some "b") none none,
   Op.opDelete (some 1)]

/-- Witness for C6_list_sorted at a concrete reachable state. -/
theorem C6_witness :
    (listInventory (runOps initState c6ops)).1
      = Resp.okList (runOps initState c6ops).db ∧
    List.Pairwise (fun a b => a < b) ((runOps initState c6ops).db.map Item.id) :=
  C6_list_sorted (runOps initState c6ops) ⟨c6ops, rfl⟩

/-- Claim C7: deleting an existing id answers 200 Deleted, after which a get
of that id answers 404 and a second delete also answers 404. -/
theorem C7_delete_get_delete (s : ServerState) (n : Int)
    (hnodup : (s.db.map Item.id).Nodup)
    (hex : ∃ x ∈ s.db, (x.id : Int) = n) :
    (deleteItem s (some n)).1 = Resp.okText "Deleted" ∧
    (getItem (deleteItem s (some n)).2 (some n)).1 = Resp.notFound "Not found" ∧
    (deleteItem (deleteItem s (some n)).2 (some n)).1 = Resp.notFound "Not found" := by
  obtain ⟨y, hy⟩ := exists_find?_eq_some s.db n hex
  have h2 : (deleteItem s (some n)).2
      = { db := s.db.eraseP (fun x => (x.id : Int) == n),
          photos := delBlob s.photos (photoFile n) } := by
    simp [deleteItem, hy]
  have hnone := find?_eraseP_eq_none s.db n hnodup
  refine ⟨by simp [deleteItem, hy], ?_, ?_⟩
  · rw [h2]
    simp [getItem, hnone]
  · rw [h2]
    simp [deleteItem, hnone]

/-- The one-item state used to witness C7_delete_get_delete. -/
def c7state : ServerState :=
  { db := [{ id := 1, name := "a", description := "", photo := none }], photos := [] }

/-- Witness for C7_delete_get_delete at a concrete input. -/
theorem C7_witness :
    (deleteItem c7state (some 1)).1 = Resp.okText "Deleted" ∧
    (getItem (deleteItem c7state (some 1)).2 (some 1)).1 = Resp.notFound "Not found" ∧
    (deleteItem (deleteItem c7state (some 1)).2 (some 1)).1
      = Resp.notFound "Not found" :=
  C7_delete_get_delete c7state 1 (by decide) (by decide)

/-- Claim C8: for an existing item, storing any byte content as its photo and
then fetching the photo returns exactly those bytes, and after deleting the
item the photo fetch answers 404. -/
theorem C8_photo_roundtrip (s : ServerState) (n : Int) (bytes : List Nat)
    (hex : ∃ x ∈ s.db, (x.id : Int) = n) :
    (getPhoto (putPhoto s (some n) (some bytes)).2 (some n)).1 = Resp.okBytes bytes ∧
    (getPhoto (deleteItem (putPhoto s (some n) (some bytes)).2 (some n)).2 (some n)).1
      = Resp.notFound "Photo not found" := by
  obtain ⟨y, hy⟩ := exists_find?_eq_some s.db n hex
  have h2 : (putPhoto s (some n) (some bytes)).2
      = { db := updateFirst (fun x => (x.id : Int) == n)
            (fun x => { x with photo := some (photoFile n) }) s.db,
          photos := putBlob s.photos (photoFile n) bytes } := by
    simp [putPhoto, hy]
  have hy2 : (updateFirst (fun x => (x.id : Int) == n)
      (fun x => { x with photo := some (photoFile n) }) s.db).find?
        (fun x => (x.id : Int) == n) = some { y with photo := some (photoFile n) } :=
    find?_updateFirst_some (fun x => (x.id : Int) == n)
      (fun x => { x with photo := some (photoFile n) }) (fun x => rfl) s.db y hy
  constructor
  · rw [h2]
    simp [getPhoto, getBlob_putBlob]
  · rw [h2]
    simp [deleteItem, hy2, getPhoto, getBlob_delBlob]

/-- The one-item state used to witness C8_photo_roundtrip. -/
def c8state : ServerState :=
  { db := [{ id := 2, name := "b", description := "", photo := none }], photos := [] }

/-- Witness for C8_photo_roundtrip at a concrete input. -/
theorem C8_witness :
    (getPhoto (putPhoto c8state (some 2) (some [9, 8, 7])).2 (some 2)).1
      = Resp.okBytes [9, 8, 7] ∧
    (getPhoto (deleteItem (putPhoto c8state (some 2) (some [9, 8, 7])).2 (some 2)).2
        (some 2)).1 = Resp.notFound "Photo not found" :=
  C8_photo_roundtrip c8state 2 [9, 8, 7] (by decide)

/-- Claim C9: a photo put for an id with no record answers 404 and leaves the
whole state untouched, and a photo put with no file for an existing record
answers 400 and also leaves the whole state untouched. -/
theorem C9_putPhoto_failures (s t : ServerState) (n m : Int)
    (file? : Option (List Nat))
    (habs : ∀ x ∈ s.db, (x.id : Int) ≠ n)
    (hex : ∃ x ∈ t.db, (x.id : Int) = m) :
    putPhoto s (some n) file? = (Resp.notFound "Not found", s) ∧
    putPhoto t (some m) none = (Resp.badRequest "No photo uploaded", t) := by
  have hfind := find?_eq_none_of_absent s.db n habs
  obtain ⟨y, hy⟩ := exists_find?_eq_some t.db m hex
  exact ⟨by simp [putPhoto, hfind], by simp [putPhoto, hy]⟩

/-- The one-item state used to witness C9_putPhoto_failures. -/
def c9state : ServerState :=
  { db := [{ id := 3, name := "c", description := "", photo := none }], photos := [] }

/-- Witness for C9_putPhoto_failures at a concrete input. -/
theorem C9_witness :
    putPhoto c9state (some 7) (some [1]) = (Resp.notFound "Not found", c9state) ∧
    putPhoto c9state (some 3) none = (Resp.badRequest "No photo uploaded", c9state) :=
  C9_putPhoto_failures c9state c9state 7 3 (some [1]) (by decide) (by decide)

/-- Claim C10: the four read operations return the state they were given:
list, get, photo get and search never change the registry or the photo
store. -/
theorem C10_reads_pure (s : ServerState) (id1 id2 id3 : Option Int)
    (inc? : Option String) :
    (listInventory s).2 = s ∧ (getItem s id1).2 = s ∧ (getPhoto s id2).2 = s ∧
    (search s id3 inc?).2 = s :=
  ⟨rfl, getItem_snd s id1, getPhoto_snd s id2, search_snd s id3 inc?⟩

end Inventory
